import Mathlib

/-!
# Verification of the VisionNarrator audio pipeline

Shallow embedding of the audio decode/playback/export pipeline of the
VisionNarrator repository: the base64 codec, the PCM decoder, the WAV
encoder (all imported by the two App components from `utils/audioUtils`),
and the playback-controller state manipulated by `startNewAudio`,
`togglePlayback`, `stopAudio` and the `onended` handler of the main App
component, together with the simplified `playAudio` of the desktop App
variant.
-/

deriving instance DecidableEq for Except

namespace VisionNarrator

/-! ## Base64 codec

Modelled from the spec: `utils/audioUtils.ts` (the `decode`/`encode`
base64 codec) is imported by both App components but is not present in
the repository sources; the definitions below follow spec section 4.1:
`decode` fails with `MalformedInputError` on input that is not valid
base64, `encode` is its inverse, and the round-trip laws hold modulo
canonical padding.  A base64 string is represented by its list of
characters, a byte buffer by a list of naturals below 256. -/

/-- Code point of the base64 digit with value `n` (`A`-`Z`, `a`-`z`,
`0`-`9`, `+`, `/`). -/
def b64code (n : Nat) : Nat :=
  if n < 26 then 65 + n
  else if n < 52 then 71 + n
  else if n < 62 then n - 4
  else if n = 62 then 43
  else 47

/-- The base64 digit with value `n`. -/
def b64char (n : Nat) : Char := Char.ofNat (b64code n)

/-- Inverse table of `b64code` on code points. -/
def decB64Code (c : Nat) : Option Nat :=
  if 65 ≤ c ∧ c ≤ 90 then some (c - 65)
  else if 97 ≤ c ∧ c ≤ 122 then some (c - 71)
  else if 48 ≤ c ∧ c ≤ 57 then some (c + 4)
  else if c = 43 then some 62
  else if c = 47 then some 63
  else none

/-- Value of a base64 digit, `none` for a character outside the alphabet. -/
def decB64Char (c : Char) : Option Nat := decB64Code c.toNat

/-- Modelled from the spec: `encode(bytes) -> string` of
`utils/audioUtils.ts` (absent from the sources), spec section 4.1.
Encodes three bytes into four base64 digits, padding the final partial
group with `=`. -/
def encode : List Nat → List Char
  | [] => []
  | [b1] => [b64char (b1 / 4), b64char (b1 % 4 * 16), '=', '=']
  | [b1, b2] =>
    [b64char (b1 / 4), b64char (b1 % 4 * 16 + b2 / 16), b64char (b2 % 16 * 4), '=']
  | b1 :: b2 :: b3 :: rest =>
    b64char (b1 / 4) :: b64char (b1 % 4 * 16 + b2 / 16) ::
    b64char (b2 % 16 * 4 + b3 / 64) :: b64char (b3 % 64) :: encode rest

/-- Modelled from the spec: `decode(base64) -> RawByteBuffer` of
`utils/audioUtils.ts` (absent from the sources), spec section 4.1.
Decodes four base64 digits into three bytes, accepting canonical
padding only, and fails with `MalformedInputError` otherwise. -/
def decode : List Char → Except String (List Nat)
  | [] => .ok []
  | c1 :: c2 :: c3 :: c4 :: rest =>
    if c3 = '=' ∧ c4 = '=' ∧ rest = [] then
      match decB64Char c1, decB64Char c2 with
      | some v1, some v2 =>
        if v2 % 16 = 0 then .ok [v1 * 4 + v2 / 16] else .error "MalformedInputError"
      | _, _ => .error "MalformedInputError"
    else if c4 = '=' ∧ rest = [] then
      match decB64Char c1, decB64Char c2, decB64Char c3 with
      | some v1, some v2, some v3 =>
        if v3 % 4 = 0 then .ok [v1 * 4 + v2 / 16, v2 % 16 * 16 + v3 / 4]
        else .error "MalformedInputError"
      | _, _, _ => .error "MalformedInputError"
    else
      match decB64Char c1, decB64Char c2, decB64Char c3, decB64Char c4 with
      | some v1, some v2, some v3, some v4 =>
        match decode rest with
        | .ok bs =>
          .ok ((v1 * 4 + v2 / 16) :: (v2 % 16 * 16 + v3 / 4) :: (v3 % 4 * 64 + v4) :: bs)
        | .error e => .error e
      | _, _, _, _ => .error "MalformedInputError"
  | _ => .error "MalformedInputError"

/-! ## PCM decoder

Modelled from the spec: `decodeAudioData` of `utils/audioUtils.ts` is
imported by both App components but absent from the repository sources;
the definitions below follow spec section 4.2 (`decodePcm`): consecutive
byte pairs are little-endian signed 16-bit integers, normalized by
division by 32768, trailing incomplete frames are discarded, and a zero
sample rate or channel count fails with `UnsupportedFormatError`. -/

/-- The spec's SampleBuffer: normalized amplitudes tagged with sample
rate and channel count (spec section 3). -/
structure SampleBuffer where
  samples : List ℚ
  sampleRate : Nat
  channelCount : Nat
  deriving DecidableEq, Repr

/-- Little-endian signed 16-bit integer from two bytes. -/
def toInt16 (lo hi : Nat) : Int :=
  let v := lo % 256 + 256 * (hi % 256)
  if v < 32768 then (v : Int) else (v : Int) - 65536

/-- Consecutive byte pairs normalized by division by 32768; a trailing
odd byte is dropped. -/
def pcmSamples : List Nat → List ℚ
  | lo :: hi :: rest => ((toInt16 lo hi : ℚ) / 32768) :: pcmSamples rest
  | _ => []

/-- Modelled from the spec: `decodeAudioData(bytes, ctx, sampleRate,
numChannels)` of `utils/audioUtils.ts` (absent from the sources), the
PCM decoder of spec section 4.2.  The audio-context argument only hosts
the resulting buffer and carries no data, so it is not a parameter
here.  Bytes beyond the last complete frame of `2 * numChannels` bytes
are discarded without error. -/
def decodeAudioData (bytes : List Nat) (sampleRate numChannels : Nat) :
    Except String SampleBuffer :=
  if sampleRate = 0 ∨ numChannels = 0 then .error "UnsupportedFormatError"
  else
    let frameBytes := 2 * numChannels
    let nFrames := bytes.length / frameBytes
    .ok ⟨pcmSamples (bytes.take (nFrames * frameBytes)), sampleRate, numChannels⟩

/-! ## WAV encoder

Modelled from the spec: `createWavBlob` of `utils/audioUtils.ts` is
imported by both App components but absent from the repository sources;
the definition below follows spec section 4.3 (`encodeWav`): the
canonical 44-byte RIFF/WAVE header followed by the raw 16-bit
little-endian PCM bytes.  Both call sites pass raw PCM bytes, so no
re-quantization step arises; the channel count is the fixed mono of the
speech collaborator payloads (spec section 6). -/

/-- Two little-endian bytes of a 16-bit value. -/
def u16le (v : Nat) : List Nat := [v % 256, v / 256 % 256]

/-- Four little-endian bytes of a 32-bit value. -/
def u32le (v : Nat) : List Nat :=
  [v % 256, v / 256 % 256, v / 65536 % 256, v / 16777216 % 256]

/-- Modelled from the spec: `createWavBlob(bytes, sampleRate)` of
`utils/audioUtils.ts` (absent from the sources), spec section 4.3.
The 44 header bytes are spelled out one by one (grouped per header
field, each multi-byte field little-endian) followed by the data
bytes. -/
def createWavBlob (bytes : List Nat) (sampleRate : Nat) : List Nat :=
  let numChannels := 1
  let dataSize := bytes.length
  let byteRate := sampleRate * numChannels * 2
  let blockAlign := numChannels * 2
  -- bytes 0-3: RIFF
  82 :: 73 :: 70 :: 70 ::
  -- bytes 4-7: total size minus 8, that is dataSize + 36
  (36 + dataSize) % 256 :: (36 + dataSize) / 256 % 256 ::
    (36 + dataSize) / 65536 % 256 :: (36 + dataSize) / 16777216 % 256 ::
  -- bytes 8-11: WAVE
  87 :: 65 :: 86 :: 69 ::
  -- bytes 12-15: fmt followed by a space
  102 :: 109 :: 116 :: 32 ::
  -- bytes 16-19: fmt sub-chunk size 16
  16 :: 0 :: 0 :: 0 ::
  -- bytes 20-21: audio format 1 (integer PCM)
  1 :: 0 ::
  -- bytes 22-23: channel count
  numChannels % 256 :: numChannels / 256 % 256 ::
  -- bytes 24-27: sample rate
  sampleRate % 256 :: sampleRate / 256 % 256 ::
    sampleRate / 65536 % 256 :: sampleRate / 16777216 % 256 ::
  -- bytes 28-31: byte rate
  byteRate % 256 :: byteRate / 256 % 256 ::
    byteRate / 65536 % 256 :: byteRate / 16777216 % 256 ::
  -- bytes 32-33: block align
  blockAlign % 256 :: blockAlign / 256 % 256 ::
  -- bytes 34-35: bits per sample 16
  16 :: 0 ::
  -- bytes 36-39: data
  100 :: 97 :: 116 :: 97 ::
  -- bytes 40-43: data sub-chunk size
  dataSize % 256 :: dataSize / 256 % 256 ::
    dataSize / 65536 % 256 :: dataSize / 16777216 % 256 ::
  bytes

/-! ## App audio state

Embedding of the audio state manipulated by the main App component
(`startNewAudio`, `togglePlayback`, `stopAudio`, `downloadAudio`, the
`onended` handler and the `useEffect` teardown) and by the
`playAudio`/`onended` of the desktop App variant.  The mutable pieces —
`audioContextRef`, `activeSourceRef`, `isPlaying`, `isPaused` — become
fields of `AppState`.  Each buffer source started is identified by a
fresh session id; `sessions` is a ghost log of every session's status
so that claims about terminated sessions can be stated.  `ctxCreations`
is a ghost counter of audio-context constructions. -/

/-- `AppStatus` of `types.ts`. -/
inductive AppStatus where
  | IDLE | UPLOADING | SAMPLING | ANALYZING | NARRATING | COMPLETED | ERROR
  deriving DecidableEq, Repr

/-- `NarrationResult` of `types.ts`; the base64 `audioData` is optional. -/
structure NarrationResult where
  text : String
  audioData : Option (List Char)
  thinkingProcess : Option String
  deriving DecidableEq, Repr

/-- JavaScript truthiness of the optional base64 payload: `undefined`
and the empty string are falsy. -/
def jsTruthy : Option (List Char) → Bool
  | none => false
  | some s => !s.isEmpty

/-- Status of one playback session (one buffer source). -/
inductive SessionStatus where
  | playing | stopped
  deriving DecidableEq, Repr

/-- The audio state of the App component.  `ctx = some b` means the
shared AudioContext exists with `b` recording whether it is suspended;
`activeSource` is `activeSourceRef.current`. -/
structure AppState where
  ctx : Option Bool
  ctxCreations : Nat
  ctxClosed : Bool
  activeSource : Option Nat
  sessions : List (Nat × SessionStatus)
  nextId : Nat
  isPlaying : Bool
  isPaused : Bool
  deriving DecidableEq, Repr

/-- The initial App state: no context, no source, nothing playing. -/
def AppState.init : AppState :=
  ⟨none, 0, false, none, [], 0, false, false⟩

/-- Ghost-log update: record a new status for session `id`. -/
def setStatus (l : List (Nat × SessionStatus)) (id : Nat) (st : SessionStatus) :
    List (Nat × SessionStatus) :=
  l.map fun p => if p.1 = id then (p.1, st) else p

/-- Ghost-log lookup of a session's most recently recorded status. -/
def getStatus : List (Nat × SessionStatus) → Nat → Option SessionStatus
  | [], _ => none
  | (a, st) :: rest, id => if a = id then some st else getStatus rest id

/-- `stopAudio` of the main App (part_000 lines 279-291): halt and drop
the active source if any (the `source.stop()` call is wrapped in
try/catch), resume the shared context if it was left suspended by a
pause, and clear both flags. -/
def stopAudio (s : AppState) : AppState :=
  let s1 :=
    match s.activeSource with
    | some id =>
      { s with activeSource := none, sessions := setStatus s.sessions id .stopped }
    | none => s
  let s2 :=
    match s1.ctx with
    | some true => { s1 with ctx := some false }
    | _ => s1
  { s2 with isPlaying := false, isPaused := false }

/-- The `source.stop()` platform call, which may raise (for example
`InvalidStateError`). -/
def sourceStopOp (throws : Bool) : Except String Unit :=
  if throws then .error "InvalidStateError" else .ok ()

/-- `stopAudio` with the possible `source.stop()` exception made
explicit: the try/catch of part_000 lines 281-283 swallows it, so the
result never depends on `throws` and is never an error. -/
def stopAudioE (throws : Bool) (s : AppState) : Except String AppState :=
  let s1 :=
    match s.activeSource with
    | some id =>
      match sourceStopOp throws with
      | .ok _ =>
        { s with activeSource := none, sessions := setStatus s.sessions id .stopped }
      | .error _ =>
        { s with activeSource := none, sessions := setStatus s.sessions id .stopped }
    | none => s
  let s2 :=
    match s1.ctx with
    | some true => { s1 with ctx := some false }
    | _ => s1
  .ok { s2 with isPlaying := false, isPaused := false }

/-- The audio buffer computed inside `startNewAudio` (part_000 lines
244-245) and inside `playAudio` of the desktop variant (part_001 line
120): the base64 payload decoded and interpreted at 24000 Hz mono. -/
def startNewAudioBuffer (base64 : List Char) : Except String SampleBuffer := do
  let bytes ← decode base64
  decodeAudioData bytes 24000 1

/-- `startNewAudio` of the main App (part_000 lines 236-260): stop any
active session, lazily create the shared context at 24000 Hz, resume it
if suspended, decode the payload, start a fresh source and mark it
active and playing.  The returned flag records whether a source was
started (decoding may fail, rejecting the async call). -/
def startNewAudio (base64 : List Char) (s : AppState) : AppState × Bool :=
  let s1 := stopAudio s
  let s2 :=
    match s1.ctx with
    | none => { s1 with ctx := some false, ctxCreations := s1.ctxCreations + 1 }
    | some _ => s1
  let s3 :=
    match s2.ctx with
    | some true => { s2 with ctx := some false }
    | _ => s2
  match startNewAudioBuffer base64 with
  | .error _ => (s3, false)
  | .ok _ =>
    ({ s3 with
        activeSource := some s3.nextId
        sessions := (s3.nextId, .playing) :: s3.sessions
        nextId := s3.nextId + 1
        isPlaying := true
        isPaused := false }, true)

/-- The `source.onended` handler installed by `startNewAudio` (part_000
lines 250-254): it unconditionally clears both flags and the active
source reference, with no check that the finished source is still the
active one. -/
def onendedHandler (s : AppState) : AppState :=
  { s with isPlaying := false, isPaused := false, activeSource := none }

/-- `togglePlayback` of the main App (part_000 lines 262-277): no-op
without a context; resume from pause; suspend while playing; otherwise
restart from the stored payload when present. -/
def togglePlayback (resultAudio : Option (List Char)) (s : AppState) : AppState :=
  match s.ctx with
  | none => s
  | some _ =>
    if s.isPaused then { s with ctx := some false, isPaused := false, isPlaying := true }
    else if s.isPlaying then
      { s with ctx := some true, isPaused := true, isPlaying := false }
    else if jsTruthy resultAudio then (startNewAudio (resultAudio.getD []) s).1
    else s

/-- The `useEffect` cleanup of the main App (part_000 lines 117-123):
close the shared context on unmount when it exists. -/
def appTeardown (s : AppState) : AppState :=
  match s.ctx with
  | some _ => { s with ctxClosed := true }
  | none => s

/-- `playAudio` of the desktop App variant (part_001 lines 114-128):
stop the active source if any (without clearing the reference), lazily
create the shared context, decode, start a fresh source, mark it active
and playing.  The variant keeps no pause flag. -/
def playAudio (base64 : List Char) (s : AppState) : AppState × Bool :=
  let s1 :=
    match s.activeSource with
    | some id => { s with sessions := setStatus s.sessions id .stopped }
    | none => s
  let s2 :=
    match s1.ctx with
    | none => { s1 with ctx := some false, ctxCreations := s1.ctxCreations + 1 }
    | some _ => s1
  match startNewAudioBuffer base64 with
  | .error _ => (s2, false)
  | .ok _ =>
    ({ s2 with
        activeSource := some s2.nextId
        sessions := (s2.nextId, .playing) :: s2.sessions
        nextId := s2.nextId + 1
        isPlaying := true }, true)

/-- The `source.onended` handler of the desktop variant (part_001 line
124): clears the playing flag unconditionally, with no stale-handle
check. -/
def onendedHandler001 (s : AppState) : AppState :=
  { s with isPlaying := false }

/-- `downloadAudio` of the main App (part_000 lines 293-305) and the
download handler of the desktop variant (part_001 lines 192-199): the
payload decoded and wrapped as a WAV file at 24000 Hz. -/
def downloadAudioWav (audioData : List Char) : Except String (List Nat) := do
  let bytes ← decode audioData
  pure (createWavBlob bytes 24000)

/-- Outcome of the success path of `processVideo` once the speech
collaborator has answered. -/
structure ProcessOutcome where
  status : AppStatus
  error : Option String
  result : Option NarrationResult
  autoPlayStarted : Bool
  deriving DecidableEq, Repr

/-- The tail of `processVideo` of the main App (part_000 lines
215-228): store the result, enter COMPLETED, and auto-play only when
the payload is truthy. -/
def processVideoAfterSpeech (narration : String) (analysis : Option String)
    (audioBase64 : Option (List Char)) : ProcessOutcome :=
  { status := AppStatus.COMPLETED
    error := none
    result := some ⟨narration, audioBase64, analysis⟩
    autoPlayStarted := jsTruthy audioBase64 }

/-- The tail of `processVideo` of the desktop variant (part_001 lines
103-107); the variant never resets a previous error message, so the
error field is whatever it was before. -/
def processVideoAfterSpeech001 (narration : String) (analysis : Option String)
    (audioBase64 : Option (List Char)) (prevError : Option String) : ProcessOutcome :=
  { status := AppStatus.COMPLETED
    error := prevError
    result := some ⟨narration, audioBase64, analysis⟩
    autoPlayStarted := jsTruthy audioBase64 }

/-- Whether the play/stop/download control cluster of the main App is
rendered (part_000 line 463: guarded by `result.audioData &&`). -/
def audioControlsRendered (r : NarrationResult) : Bool :=
  jsTruthy r.audioData

/-- Whether the play/download buttons of the desktop variant are
rendered (part_001 lines 189-204: present whenever a result is shown,
with no guard on `audioData`). -/
def audioControlsRendered001 (_r : NarrationResult) : Bool :=
  true

/-- The play button handler of the desktop variant (part_001 line 190):
`playAudio(result.audioData!)`.  The non-null assertion passes the
missing value through, and the codec rejects it: the click errors
instead of being a no-op. -/
def playButtonClick001 (r : NarrationResult) : Except String SampleBuffer :=
  match r.audioData with
  | some b64 => startNewAudioBuffer b64
  | none => .error "TypeError"

/-- The UI events that touch the audio state of the main App while it
is mounted. -/
inductive Ev where
  | play (payload : List Char)
  | stop
  | toggle (resultAudio : Option (List Char))
  | ended

/-- One event step of the main App audio state. -/
def stepEv : Ev → AppState → AppState
  | .play p, s => (startNewAudio p s).1
  | .stop, s => stopAudio s
  | .toggle r, s => togglePlayback r s
  | .ended, s => onendedHandler s

/-- A run of the main App audio state over a list of events. -/
def runEv : List Ev → AppState → AppState
  | [], s => s
  | e :: rest, s => runEv rest (stepEv e s)

/-- Audio-context lifecycle invariant of the main App: the context has
been constructed exactly once iff it currently exists, and it has not
been closed. -/
def CtxInv (s : AppState) : Prop :=
  s.ctxCreations = (if s.ctx.isSome then 1 else 0) ∧ s.ctxClosed = false

/-! ## Helper lemmas -/

theorem decB64Char_b64char {n : Nat} (h : n < 64) : decB64Char (b64char n) = some n := by
  revert h; revert n; decide

theorem b64char_ne_pad {n : Nat} (h : n < 64) : b64char n ≠ '=' := by
  revert h; revert n; decide

theorem decB64Code_inv {c v : Nat} (h : decB64Code c = some v) :
    v < 64 ∧ b64code v = c := by
  unfold decB64Code at h
  split_ifs at h <;> simp at h <;>
    (refine ⟨by omega, ?_⟩) <;> (unfold b64code; split_ifs <;> omega)

theorem b64char_decB64Char {c : Char} {v : Nat} (h : decB64Char c = some v) :
    v < 64 ∧ b64char v = c := by
  have h2 := decB64Code_inv h
  refine ⟨h2.1, ?_⟩
  rw [b64char, h2.2, Char.ofNat_toNat]

theorem decode_encode : ∀ bs : List Nat, (∀ b ∈ bs, b < 256) →
    decode (encode bs) = .ok bs
  | [], _ => rfl
  | [b1], h => by
    have hb1 : b1 < 256 := h b1 (by simp)
    have e1 := decB64Char_b64char (show b1 / 4 < 64 by omega)
    have e2 := decB64Char_b64char (show b1 % 4 * 16 < 64 by omega)
    have hm : b1 % 4 * 16 % 16 = 0 := by omega
    simp [encode, decode, e1, e2, hm]
    omega
  | [b1, b2], h => by
    have hb1 : b1 < 256 := h b1 (by simp)
    have hb2 : b2 < 256 := h b2 (by simp)
    have e1 := decB64Char_b64char (show b1 / 4 < 64 by omega)
    have e2 := decB64Char_b64char (show b1 % 4 * 16 + b2 / 16 < 64 by omega)
    have e3 := decB64Char_b64char (show b2 % 16 * 4 < 64 by omega)
    have hp := b64char_ne_pad (show b2 % 16 * 4 < 64 by omega)
    have hm : b2 % 16 * 4 % 4 = 0 := by omega
    simp [encode, decode, e1, e2, e3, hp, hm]
    omega
  | b1 :: b2 :: b3 :: rest, h => by
    have hb1 : b1 < 256 := h b1 (by simp)
    have hb2 : b2 < 256 := h b2 (by simp)
    have hb3 : b3 < 256 := h b3 (by simp)
    have ih := decode_encode rest (fun b hb => h b (by simp [hb]))
    have e1 := decB64Char_b64char (show b1 / 4 < 64 by omega)
    have e2 := decB64Char_b64char (show b1 % 4 * 16 + b2 / 16 < 64 by omega)
    have e3 := decB64Char_b64char (show b2 % 16 * 4 + b3 / 64 < 64 by omega)
    have e4 := decB64Char_b64char (show b3 % 64 < 64 by omega)
    have hp3 := b64char_ne_pad (show b2 % 16 * 4 + b3 / 64 < 64 by omega)
    have hp4 := b64char_ne_pad (show b3 % 64 < 64 by omega)
    simp [encode, decode, e1, e2, e3, e4, hp3, hp4, ih]
    omega

theorem encode_decode : ∀ (s : List Char) (bs : List Nat),
    decode s = .ok bs → encode bs = s
  | [], bs, h => by
    simp [decode] at h
    subst h
    rfl
  | [_], bs, h => by simp [decode] at h
  | [_, _], bs, h => by simp [decode] at h
  | [_, _, _], bs, h => by simp [decode] at h
  | c1 :: c2 :: c3 :: c4 :: rest, bs, h => by
    simp only [decode] at h
    split_ifs at h with hpad2 hpad1
    · -- two data characters, double padding
      obtain ⟨hc3, hc4, hrest⟩ := hpad2
      rcases h1 : decB64Char c1 with _ | v1 <;> rw [h1] at h <;>
        [simp at h; skip]
      rcases h2 : decB64Char c2 with _ | v2 <;> rw [h2] at h <;>
        [simp at h; skip]
      obtain ⟨hlt1, hb1⟩ := b64char_decB64Char h1
      obtain ⟨hlt2, hb2⟩ := b64char_decB64Char h2
      dsimp only at h
      split_ifs at h with hm
      simp only [Except.ok.injEq] at h
      subst h; subst hc3; subst hc4; subst hrest
      simp only [encode]
      have g1 : (v1 * 4 + v2 / 16) / 4 = v1 := by omega
      have g2 : (v1 * 4 + v2 / 16) % 4 * 16 = v2 := by omega
      rw [g1, g2, hb1, hb2]
    · -- three data characters, single padding
      obtain ⟨hc4, hrest⟩ := hpad1
      rcases h1 : decB64Char c1 with _ | v1 <;> rw [h1] at h <;>
        [simp at h; skip]
      rcases h2 : decB64Char c2 with _ | v2 <;> rw [h2] at h <;>
        [simp at h; skip]
      rcases h3 : decB64Char c3 with _ | v3 <;> rw [h3] at h <;>
        [simp at h; skip]
      obtain ⟨hlt1, hb1⟩ := b64char_decB64Char h1
      obtain ⟨hlt2, hb2⟩ := b64char_decB64Char h2
      obtain ⟨hlt3, hb3⟩ := b64char_decB64Char h3
      dsimp only at h
      split_ifs at h with hm
      simp only [Except.ok.injEq] at h
      subst h; subst hc4; subst hrest
      simp only [encode]
      have g1 : (v1 * 4 + v2 / 16) / 4 = v1 := by omega
      have g2 : (v1 * 4 + v2 / 16) % 4 * 16 + (v2 % 16 * 16 + v3 / 4) / 16 = v2 := by
        omega
      have g3 : (v2 % 16 * 16 + v3 / 4) % 16 * 4 = v3 := by omega
      rw [g1, g2, g3, hb1, hb2, hb3]
    · -- four data characters, recurse
      rcases h1 : decB64Char c1 with _ | v1 <;> rw [h1] at h <;>
        [simp at h; skip]
      rcases h2 : decB64Char c2 with _ | v2 <;> rw [h2] at h <;>
        [simp at h; skip]
      rcases h3 : decB64Char c3 with _ | v3 <;> rw [h3] at h <;>
        [simp at h; skip]
      rcases h4 : decB64Char c4 with _ | v4 <;> rw [h4] at h <;>
        [simp at h; skip]
      dsimp only at h
      rcases hr : decode rest with e | bs' <;> rw [hr] at h <;>
        [simp at h; skip]
      simp only [Except.ok.injEq] at h
      obtain ⟨hlt1, hb1⟩ := b64char_decB64Char h1
      obtain ⟨hlt2, hb2⟩ := b64char_decB64Char h2
      obtain ⟨hlt3, hb3⟩ := b64char_decB64Char h3
      obtain ⟨hlt4, hb4⟩ := b64char_decB64Char h4
      have ih := encode_decode rest bs' hr
      subst h
      simp only [encode]
      have g1 : (v1 * 4 + v2 / 16) / 4 = v1 := by omega
      have g2 : (v1 * 4 + v2 / 16) % 4 * 16 + (v2 % 16 * 16 + v3 / 4) / 16 = v2 := by
        omega
      have g3 : (v2 % 16 * 16 + v3 / 4) % 16 * 4 + (v3 % 4 * 64 + v4) / 64 = v3 := by
        omega
      have g4 : (v3 % 4 * 64 + v4) % 64 = v4 := by omega
      rw [g1, g2, g3, g4, hb1, hb2, hb3, hb4, ih]

theorem decode_error_shape : ∀ s : List Char,
    (decode s).isOk = true ∨ decode s = .error "MalformedInputError"
  | [] => Or.inl rfl
  | [_] => Or.inr rfl
  | [_, _] => Or.inr rfl
  | [_, _, _] => Or.inr rfl
  | c1 :: c2 :: c3 :: c4 :: rest => by
    have ih := decode_error_shape rest
    simp only [decode]
    split_ifs
    · rcases decB64Char c1 with _ | v1 <;> rcases decB64Char c2 with _ | v2 <;>
        dsimp only <;> try (right; rfl)
      split_ifs
      · left; rfl
      · right; rfl
    · rcases decB64Char c1 with _ | v1 <;> rcases decB64Char c2 with _ | v2 <;>
        rcases decB64Char c3 with _ | v3 <;> dsimp only <;> try (right; rfl)
      split_ifs
      · left; rfl
      · right; rfl
    · rcases decB64Char c1 with _ | v1 <;> rcases decB64Char c2 with _ | v2 <;>
        rcases decB64Char c3 with _ | v3 <;> rcases decB64Char c4 with _ | v4 <;>
        dsimp only <;> try (right; rfl)
      rcases hr : decode rest with e | bs' <;> dsimp only
      · rw [hr] at ih
        right
        rcases ih with ih | ih
        · simp [Except.isOk, Except.toBool] at ih
        · exact ih
      · left; rfl

theorem pcmSamples_length : ∀ l : List Nat, (pcmSamples l).length = l.length / 2
  | [] => rfl
  | [_] => by simp [pcmSamples]
  | _ :: _ :: rest => by
    simp only [pcmSamples, List.length_cons, pcmSamples_length rest]
    omega

theorem toInt16_bounds (lo hi : Nat) :
    -32768 ≤ toInt16 lo hi ∧ toInt16 lo hi ≤ 32767 := by
  simp only [toInt16]
  have h1 : lo % 256 < 256 := Nat.mod_lt _ (by omega)
  have h2 : hi % 256 < 256 := Nat.mod_lt _ (by omega)
  split_ifs <;> omega

theorem sample_bound {n : Int} (h1 : -32768 ≤ n) (h2 : n ≤ 32767) :
    -1 ≤ (n : ℚ) / 32768 ∧ (n : ℚ) / 32768 < 1 := by
  constructor
  · rw [le_div_iff₀ (by norm_num : (0 : ℚ) < 32768)]
    have : ((-32768 : Int) : ℚ) ≤ (n : ℚ) := by exact_mod_cast h1
    push_cast at this
    linarith
  · rw [div_lt_one (by norm_num : (0 : ℚ) < 32768)]
    have : (n : ℚ) ≤ ((32767 : Int) : ℚ) := by exact_mod_cast h2
    push_cast at this
    linarith

theorem pcmSamples_mem : ∀ (l : List Nat) (q : ℚ), q ∈ pcmSamples l →
    -1 ≤ q ∧ q < 1
  | [], q, h => by simp [pcmSamples] at h
  | [_], q, h => by simp [pcmSamples] at h
  | lo :: hi :: rest, q, h => by
    simp only [pcmSamples, List.mem_cons] at h
    rcases h with h | h
    · subst h
      exact sample_bound (toInt16_bounds lo hi).1 (toInt16_bounds lo hi).2
    · exact pcmSamples_mem rest q h

theorem getStatus_cons_self (id : Nat) (st : SessionStatus)
    (l : List (Nat × SessionStatus)) : getStatus ((id, st) :: l) id = some st := by
  simp [getStatus]

theorem getStatus_cons_ne {a id : Nat} (h : a ≠ id) (st : SessionStatus)
    (l : List (Nat × SessionStatus)) : getStatus ((a, st) :: l) id = getStatus l id := by
  simp [getStatus, h]

theorem startNewAudioBuffer_ok {b64 : List Char} {bytes : List Nat}
    (h : decode b64 = .ok bytes) :
    startNewAudioBuffer b64 =
      .ok ⟨pcmSamples (bytes.take (bytes.length / 2 * 2)), 24000, 1⟩ := by
  unfold startNewAudioBuffer
  rw [h]
  rfl

theorem startNewAudioBuffer_err {b64 : List Char} {e : String}
    (h : decode b64 = .error e) : startNewAudioBuffer b64 = .error e := by
  unfold startNewAudioBuffer
  rw [h]
  rfl

theorem startNewAudio_ok {p : List Char} {bytes : List Nat}
    (h : decode p = .ok bytes) (s : AppState) :
    startNewAudio p s =
      ({ ctx := some false
         ctxCreations := s.ctxCreations + (if s.ctx.isSome then 0 else 1)
         ctxClosed := s.ctxClosed
         activeSource := some s.nextId
         sessions := (s.nextId, .playing) ::
           (match s.activeSource with
            | some id => setStatus s.sessions id .stopped
            | none => s.sessions)
         nextId := s.nextId + 1
         isPlaying := true
         isPaused := false }, true) := by
  obtain ⟨ctx, cc, cl, act, sess, nid, ip, ipd⟩ := s
  cases act <;> rcases ctx with _ | b <;> try cases b
  all_goals
    simp [startNewAudio, stopAudio, startNewAudioBuffer_ok h]

theorem playAudio_ok {p : List Char} {bytes : List Nat}
    (h : decode p = .ok bytes) (s : AppState) :
    playAudio p s =
      ({ ctx := some (s.ctx.getD false)
         ctxCreations := s.ctxCreations + (if s.ctx.isSome then 0 else 1)
         ctxClosed := s.ctxClosed
         activeSource := some s.nextId
         sessions := (s.nextId, .playing) ::
           (match s.activeSource with
            | some id => setStatus s.sessions id .stopped
            | none => s.sessions)
         nextId := s.nextId + 1
         isPlaying := true
         isPaused := s.isPaused }, true) := by
  obtain ⟨ctx, cc, cl, act, sess, nid, ip, ipd⟩ := s
  cases act <;> rcases ctx with _ | b <;> try cases b
  all_goals
    simp [playAudio, startNewAudioBuffer_ok h]

theorem startNewAudio_ctxInv (p : List Char) {s : AppState} (h : CtxInv s) :
    CtxInv (startNewAudio p s).1 := by
  obtain ⟨ctx, cc, cl, act, sess, nid, ip, ipd⟩ := s
  obtain ⟨h1, h2⟩ := h
  rcases hsb : startNewAudioBuffer p with e | sb <;>
    cases act <;> rcases ctx with _ | b <;> try cases b
  all_goals
    simp_all [CtxInv, startNewAudio, stopAudio]

theorem stepEv_ctxInv (e : Ev) {s : AppState} (h : CtxInv s) : CtxInv (stepEv e s) := by
  cases e with
  | play p => exact startNewAudio_ctxInv p h
  | stop =>
    obtain ⟨ctx, cc, cl, act, sess, nid, ip, ipd⟩ := s
    obtain ⟨h1, h2⟩ := h
    cases act <;> rcases ctx with _ | b <;> try cases b
    all_goals simp_all [CtxInv, stepEv, stopAudio]
  | toggle r =>
    obtain ⟨ctx, cc, cl, act, sess, nid, ip, ipd⟩ := s
    rcases ctx with _ | b
    · exact h
    · obtain ⟨h1, h2⟩ := h
      simp only [stepEv, togglePlayback]
      split_ifs with hp hpl hjt
      · exact ⟨by simp_all, by simp_all⟩
      · exact ⟨by simp_all, by simp_all⟩
      · exact startNewAudio_ctxInv _ ⟨h1, h2⟩
      · exact ⟨h1, h2⟩
  | ended =>
    obtain ⟨h1, h2⟩ := h
    exact ⟨h1, h2⟩

theorem runEv_ctxInv : ∀ (evs : List Ev) (s : AppState), CtxInv s →
    CtxInv (runEv evs s)
  | [], _, h => h
  | e :: rest, _, h => runEv_ctxInv rest _ (stepEv_ctxInv e h)

/-! ## Claims -/

/-- C1: At-most-one-active-session: every play call
(`startNewAudio` of the main App, `playAudio` of the desktop variant)
forcibly stops an already active session before starting the new
source, so after `play(A)` immediately followed by `play(B)` with no
intervening stop, only B's source is active and playing and A's session
is terminated (stopped). -/
theorem play_play_at_most_one_active (s t : AppState) (pA pB : List Char)
    (bA bB : List Nat) (hA : decode pA = .ok bA) (hB : decode pB = .ok bB) :
    ((startNewAudio pB (startNewAudio pA s).1).1.activeSource = some (s.nextId + 1) ∧
     getStatus (startNewAudio pB (startNewAudio pA s).1).1.sessions s.nextId =
       some .stopped ∧
     getStatus (startNewAudio pB (startNewAudio pA s).1).1.sessions (s.nextId + 1) =
       some .playing ∧
     (startNewAudio pB (startNewAudio pA s).1).1.isPlaying = true) ∧
    ((playAudio pB (playAudio pA t).1).1.activeSource = some (t.nextId + 1) ∧
     getStatus (playAudio pB (playAudio pA t).1).1.sessions t.nextId = some .stopped ∧
     getStatus (playAudio pB (playAudio pA t).1).1.sessions (t.nextId + 1) =
       some .playing ∧
     (playAudio pB (playAudio pA t).1).1.isPlaying = true) := by
  constructor
  · have hne : s.nextId + 1 ≠ s.nextId := by omega
    simp [startNewAudio_ok hA, startNewAudio_ok hB, getStatus, setStatus, hne]
  · have hne : t.nextId + 1 ≠ t.nextId := by omega
    simp [playAudio_ok hA, playAudio_ok hB, getStatus, setStatus, hne]

theorem play_play_at_most_one_active_witness :
    ((startNewAudio ['A', 'A', 'A', 'A']
        (startNewAudio ['A', 'A', 'A', 'A'] AppState.init).1).1.activeSource =
      some 1 ∧
     getStatus (startNewAudio ['A', 'A', 'A', 'A']
        (startNewAudio ['A', 'A', 'A', 'A'] AppState.init).1).1.sessions 0 =
       some .stopped ∧
     getStatus (startNewAudio ['A', 'A', 'A', 'A']
        (startNewAudio ['A', 'A', 'A', 'A'] AppState.init).1).1.sessions 1 =
       some .playing ∧
     (startNewAudio ['A', 'A', 'A', 'A']
        (startNewAudio ['A', 'A', 'A', 'A'] AppState.init).1).1.isPlaying = true) ∧
    ((playAudio ['A', 'A', 'A', 'A']
        (playAudio ['A', 'A', 'A', 'A'] AppState.init).1).1.activeSource = some 1 ∧
     getStatus (playAudio ['A', 'A', 'A', 'A']
        (playAudio ['A', 'A', 'A', 'A'] AppState.init).1).1.sessions 0 =
       some .stopped ∧
     getStatus (playAudio ['A', 'A', 'A', 'A']
        (playAudio ['A', 'A', 'A', 'A'] AppState.init).1).1.sessions 1 =
       some .playing ∧
     (playAudio ['A', 'A', 'A', 'A']
        (playAudio ['A', 'A', 'A', 'A'] AppState.init).1).1.isPlaying = true) :=
  play_play_at_most_one_active AppState.init AppState.init
    ['A', 'A', 'A', 'A'] ['A', 'A', 'A', 'A'] [0, 0, 0] [0, 0, 0] rfl rfl

/-- C2: the claim says the end-of-playback notification is a no-op when
the session handle is stale, but neither `onended` handler checks the
handle: after `play(A)` then `play(B)`, firing A's `onended` callback
clears the active-source reference and the playing flags even though
session B is the current session and still playing — the stale
notification does alter the state of the currently active session. -/
theorem onended_stale_clobbers_active :
    ((startNewAudio ['A', 'A', 'A', 'A']
        (startNewAudio ['A', 'A', 'A', 'A'] AppState.init).1).1.activeSource =
      some 1 ∧
     getStatus (startNewAudio ['A', 'A', 'A', 'A']
        (startNewAudio ['A', 'A', 'A', 'A'] AppState.init).1).1.sessions 1 =
       some .playing ∧
     (onendedHandler (startNewAudio ['A', 'A', 'A', 'A']
        (startNewAudio ['A', 'A', 'A', 'A'] AppState.init).1).1).activeSource =
       none ∧
     (onendedHandler (startNewAudio ['A', 'A', 'A', 'A']
        (startNewAudio ['A', 'A', 'A', 'A'] AppState.init).1).1).isPlaying = false ∧
     getStatus (onendedHandler (startNewAudio ['A', 'A', 'A', 'A']
        (startNewAudio ['A', 'A', 'A', 'A'] AppState.init).1).1).sessions 1 =
       some .playing) ∧
    ((playAudio ['A', 'A', 'A', 'A']
        (playAudio ['A', 'A', 'A', 'A'] AppState.init).1).1.isPlaying = true ∧
     (onendedHandler001 (playAudio ['A', 'A', 'A', 'A']
        (playAudio ['A', 'A', 'A', 'A'] AppState.init).1).1).isPlaying = false ∧
     getStatus (onendedHandler001 (playAudio ['A', 'A', 'A', 'A']
        (playAudio ['A', 'A', 'A', 'A'] AppState.init).1).1).sessions 1 =
       some .playing) :=
  ⟨⟨rfl, rfl, rfl, rfl, rfl⟩, rfl, rfl, rfl⟩

/-- C3: `stopAudio` is idempotent and never raises: from any state —
including when nothing is playing, or called twice in a row — the
wrapped `source.stop()` exception is swallowed, the call returns
normally, and afterwards there is no active source and both
`isPlaying` and `isPaused` are false. -/
theorem stopAudio_idempotent_never_raises (throws : Bool) (s : AppState) :
    stopAudioE throws s = .ok (stopAudio s) ∧
    stopAudio (stopAudio s) = stopAudio s ∧
    (stopAudio s).activeSource = none ∧
    (stopAudio s).isPlaying = false ∧ (stopAudio s).isPaused = false := by
  obtain ⟨ctx, cc, cl, act, sess, nid, ip, ipd⟩ := s
  cases throws <;> cases act <;> rcases ctx with _ | b <;> try cases b
  all_goals simp [stopAudio, stopAudioE, sourceStopOp]

/-- C4 counterexample: in the desktop App variant a result with an
absent audio payload still renders the playback/download controls, and
clicking play errors rather than being a no-op, so the controls are
neither hidden nor disabled there. -/
theorem missing_audio_controls_rendered_001 :
    audioControlsRendered001 ⟨"n", none, none⟩ = true ∧
    playButtonClick001 ⟨"n", none, none⟩ = .error "TypeError" :=
  ⟨rfl, rfl⟩

/-- C4 (amended): a missing audio payload from the speech collaborator
is a valid no-audio outcome in both App variants — COMPLETED status, no
new error, no automatic playback — and the main App does not render the
playback/download controls, while the desktop variant leaves them
rendered (and clicking play there errors). -/
theorem missing_audio_no_error (narration : String) (analysis : Option String)
    (prevError : Option String) :
    (processVideoAfterSpeech narration analysis none).status = AppStatus.COMPLETED ∧
    (processVideoAfterSpeech narration analysis none).error = none ∧
    (processVideoAfterSpeech narration analysis none).autoPlayStarted = false ∧
    audioControlsRendered ⟨narration, none, analysis⟩ = false ∧
    (processVideoAfterSpeech001 narration analysis none prevError).status =
      AppStatus.COMPLETED ∧
    (processVideoAfterSpeech001 narration analysis none prevError).autoPlayStarted =
      false ∧
    audioControlsRendered001 ⟨narration, none, analysis⟩ = true :=
  ⟨rfl, rfl, rfl, rfl, rfl, rfl, rfl⟩

/-- C5: the WAV encoder output is exactly `44 + dataByteLength` bytes;
bytes 0-3 spell RIFF and 8-11 spell WAVE; the fmt sub-chunk carries
audio format 1, bits per sample 16, byte rate
`sampleRate * channelCount * 2` and block align `channelCount * 2`
(the encoder is mono, `channelCount = 1`).  The transform is a pure
function, hence deterministic. -/
theorem createWavBlob_header (bytes : List Nat) (sampleRate : Nat) :
    (createWavBlob bytes sampleRate).length = 44 + bytes.length ∧
    (createWavBlob bytes sampleRate).take 4 = [82, 73, 70, 70] ∧
    ((createWavBlob bytes sampleRate).drop 8).take 4 = [87, 65, 86, 69] ∧
    ((createWavBlob bytes sampleRate).drop 20).take 2 = u16le 1 ∧
    ((createWavBlob bytes sampleRate).drop 34).take 2 = u16le 16 ∧
    ((createWavBlob bytes sampleRate).drop 28).take 4 = u32le (sampleRate * 1 * 2) ∧
    ((createWavBlob bytes sampleRate).drop 32).take 2 = u16le (1 * 2) := by
  refine ⟨?_, rfl, rfl, rfl, rfl, rfl, rfl⟩
  simp [createWavBlob]
  omega

/-- C6: decoding a raw byte buffer of length L as mono 16-bit PCM never
errors (trailing incomplete bytes are silently discarded) and yields
exactly `L / 2` samples, each a 16-bit value divided by 32768 and hence
in `[-1, 1)`; in particular the bytes `[0x00, 0x80, 0xFF, 0x7F]` decode
to the two samples `-1` and `32767 / 32768`. -/
theorem decodeAudioData_mono_spec :
    (∀ bytes : List Nat, ∃ sb : SampleBuffer,
        decodeAudioData bytes 24000 1 = .ok sb ∧
        sb.samples.length = bytes.length / 2 ∧
        (∀ q ∈ sb.samples, -1 ≤ q ∧ q < 1) ∧
        sb.sampleRate = 24000 ∧ sb.channelCount = 1) ∧
    decodeAudioData [0, 128, 255, 127] 24000 1 =
      .ok ⟨[-1, 32767 / 32768], 24000, 1⟩ := by
  constructor
  · intro bytes
    refine ⟨_, rfl, ?_, ?_, rfl, rfl⟩
    · rw [pcmSamples_length]
      simp [List.length_take]
      omega
    · intro q hq
      exact pcmSamples_mem _ q hq
  · rw [show decodeAudioData [0, 128, 255, 127] 24000 1 =
        Except.ok ⟨pcmSamples [0, 128, 255, 127], 24000, 1⟩ from rfl]
    simp only [pcmSamples, toInt16]
    norm_num

theorem decodeAudioData_mono_spec_witness :
    decodeAudioData [0, 128, 255, 127] 24000 1 =
      .ok ⟨[-1, 32767 / 32768], 24000, 1⟩ :=
  decodeAudioData_mono_spec.2

/-- C7: the base64 codec satisfies the round-trip laws — decoding an
encoding recovers every byte buffer, encoding a successful decoding
recovers the string (canonical padding included) — and every failing
decode fails with `MalformedInputError`. -/
theorem base64_roundtrip :
    (∀ bs : List Nat, (∀ b ∈ bs, b < 256) → decode (encode bs) = .ok bs) ∧
    (∀ (s : List Char) (bs : List Nat), decode s = .ok bs → encode bs = s) ∧
    (∀ s : List Char, (decode s).isOk = true ∨
        decode s = .error "MalformedInputError") ∧
    decode ['*'] = .error "MalformedInputError" :=
  ⟨decode_encode, encode_decode, decode_error_shape, rfl⟩

theorem base64_roundtrip_witness :
    decode (encode [0, 128, 255]) = .ok [0, 128, 255] ∧
    encode [0] = ['A', 'A', '=', '='] :=
  ⟨base64_roundtrip.1 [0, 128, 255] (by decide),
   base64_roundtrip.2.1 ['A', 'A', '=', '='] [0] rfl⟩

/-- C8: the shared AudioContext is lazily created at most once — absent
initially, constructed on the first play, reused (never reconstructed)
across every later play/pause/stop/ended event — and it is closed only
by the unmount teardown, which closes it exactly when it exists. -/
theorem audioContext_lazy_once_reused (evs : List Ev) :
    AppState.init.ctx = none ∧
    (runEv evs AppState.init).ctxCreations ≤ 1 ∧
    (runEv evs AppState.init).ctxClosed = false ∧
    ((runEv evs AppState.init).ctx.isSome →
      (runEv evs AppState.init).ctxCreations = 1) ∧
    (appTeardown (runEv evs AppState.init)).ctxClosed =
      (runEv evs AppState.init).ctx.isSome := by
  have h := runEv_ctxInv evs AppState.init ⟨rfl, rfl⟩
  obtain ⟨h1, h2⟩ := h
  refine ⟨rfl, ?_, h2, ?_, ?_⟩
  · rw [h1]; split_ifs <;> omega
  · intro hs; rw [h1, if_pos hs]
  · unfold appTeardown
    rcases hc : (runEv evs AppState.init).ctx with _ | b <;> simp [hc, h2]

theorem audioContext_lazy_once_reused_witness :
    (runEv [Ev.play ['A', 'A', 'A', 'A'], Ev.stop, Ev.play ['A', 'A', 'A', 'A']]
      AppState.init).ctxCreations = 1 :=
  (audioContext_lazy_once_reused
      [Ev.play ['A', 'A', 'A', 'A'], Ev.stop, Ev.play ['A', 'A', 'A', 'A']]).2.2.2.1
    (by decide)

/-- C9: every playback decode and every export interprets the payload
at the speech collaborator's fixed format: the buffer built inside a
play call is tagged 24000 Hz mono, the play-path decode equals the PCM
decode at 24000 Hz and one channel, and the exported WAV wraps the
bytes at sample rate 24000 with channel count 1 in its header. -/
theorem fixed_format_24000_mono :
    (∀ (b64 : List Char) (sb : SampleBuffer), startNewAudioBuffer b64 = .ok sb →
        sb.sampleRate = 24000 ∧ sb.channelCount = 1) ∧
    (∀ (b64 : List Char) (bytes : List Nat), decode b64 = .ok bytes →
        startNewAudioBuffer b64 = decodeAudioData bytes 24000 1 ∧
        downloadAudioWav b64 = .ok (createWavBlob bytes 24000) ∧
        ((createWavBlob bytes 24000).drop 24).take 4 = u32le 24000 ∧
        ((createWavBlob bytes 24000).drop 22).take 2 = u16le 1) := by
  constructor
  · intro b64 sb h
    rcases hd : decode b64 with e | bytes
    · rw [startNewAudioBuffer_err hd] at h
      cases h
    · rw [startNewAudioBuffer_ok hd] at h
      cases h
      exact ⟨rfl, rfl⟩
  · intro b64 bytes hd
    refine ⟨?_, ?_, rfl, rfl⟩
    · rw [startNewAudioBuffer_ok hd]
      rfl
    · unfold downloadAudioWav
      rw [hd]
      rfl

theorem fixed_format_24000_mono_witness :
    ((⟨pcmSamples [0, 0], 24000, 1⟩ : SampleBuffer).sampleRate = 24000 ∧
     (⟨pcmSamples [0, 0], 24000, 1⟩ : SampleBuffer).channelCount = 1) ∧
    downloadAudioWav ['A', 'A', 'A', 'A'] = .ok (createWavBlob [0, 0, 0] 24000) :=
  ⟨fixed_format_24000_mono.1 ['A', 'A', 'A', 'A'] ⟨pcmSamples [0, 0], 24000, 1⟩ rfl,
   (fixed_format_24000_mono.2 ['A', 'A', 'A', 'A'] [0, 0, 0] rfl).2.1⟩

/-- C10: `stopAudio` never leaves the shared AudioContext suspended:
it maps an existing context to the resumed (not suspended) state and
creates none, so a later play on the reused context is audible. -/
theorem stopAudio_context_not_suspended (s : AppState) :
    (stopAudio s).ctx = s.ctx.map fun _ => false := by
  obtain ⟨ctx, cc, cl, act, sess, nid, ip, ipd⟩ := s
  cases act <;> rcases ctx with _ | b <;> try cases b
  all_goals simp [stopAudio]

end VisionNarrator
